import Mathlib

/-!
# SMSC USB Ethernet register access (`src/drivers/net/smscusb.h`)

A shallow embedding of the register-access header of the SMSC USB Ethernet
drivers: the register bit-field macros, the `union smscusb_mac` storage
layout, and the four inline register accessors `smscusb_raw_writel`,
`smscusb_writel`, `smscusb_raw_readl` and `smscusb_readl`.

Conventions:
* a macro is translated as the arithmetic expression it expands to, over `Nat`;
  the filter slot offsets, whose arithmetic on an `unsigned int` slot index
  can overflow, wrap modulo `2 ^ 32` explicitly;
* a `uint32_t` object is a `Nat` below `2 ^ 32`; its storage is four bytes
  whose order depends on the host byte order;
* memory is a list of bytes (each a `Nat` below `256`);
* the USB device is explicit state that is threaded through every accessor,
  together with the trace of the control transfers issued so far.
-/

namespace Smscusb

/-! ## Host byte order and the storage of 32-bit objects -/

/-- Host byte order of the machine the driver is compiled for. -/
inductive ByteOrder where
  | little
  | big
  deriving DecidableEq, Repr

/-- The four bytes of a 32-bit quantity, least significant byte first. -/
def le_bytes (v : Nat) : List Nat :=
  [v % 256, v / 256 % 256, v / 65536 % 256, v / 16777216 % 256]

/-- The 32-bit quantity whose four bytes, least significant first, are the
first four entries of `bs` (absent entries read as zero). -/
def le_value (bs : List Nat) : Nat :=
  bs.getD 0 0 % 256 + 256 * (bs.getD 1 0 % 256) + 65536 * (bs.getD 2 0 % 256)
    + 16777216 * (bs.getD 3 0 % 256)

/-- The four bytes of a 32-bit quantity, most significant byte first. -/
def be_bytes (v : Nat) : List Nat :=
  [v / 16777216 % 256, v / 65536 % 256, v / 256 % 256, v % 256]

/-- The 32-bit quantity whose four bytes, most significant first, are the
first four entries of `bs` (absent entries read as zero). -/
def be_value (bs : List Nat) : Nat :=
  bs.getD 3 0 % 256 + 256 * (bs.getD 2 0 % 256) + 65536 * (bs.getD 1 0 % 256)
    + 16777216 * (bs.getD 0 0 % 256)

/-- Storage of a `uint32_t` object: its four bytes in increasing memory
address, as laid out by a host of the given byte order. -/
def store32 (e : ByteOrder) (v : Nat) : List Nat :=
  match e with
  | .little => le_bytes v
  | .big => be_bytes v

/-- Value of the `uint32_t` object stored in the first four bytes of `bs`, as
read by a host of the given byte order. -/
def load32 (e : ByteOrder) (bs : List Nat) : Nat :=
  match e with
  | .little => le_value bs
  | .big => be_value bs

/-- Modelled from the spec: `bswap_32` of `byteswap.h` (not part of the sources
at hand), the reversal of the four bytes of a 32-bit value. -/
def bswap_32 (v : Nat) : Nat :=
  v % 256 * 16777216 + v / 256 % 256 * 65536 + v / 65536 % 256 * 256 + v / 16777216 % 256

/-- Modelled from the spec: `cpu_to_le32` of `byteswap.h` (not part of the
sources at hand): host order to little-endian, the identity on a little-endian
host and a byte swap on a big-endian host. -/
def cpu_to_le32 (e : ByteOrder) (v : Nat) : Nat :=
  match e with
  | .little => v % 4294967296
  | .big => bswap_32 v

/-- Modelled from the spec: `le32_to_cpu` of `byteswap.h` (not part of the
sources at hand): little-endian to host order, the identity on a little-endian
host and a byte swap on a big-endian host. -/
def le32_to_cpu (e : ByteOrder) (v : Nat) : Nat :=
  match e with
  | .little => v % 4294967296
  | .big => bswap_32 v

/-! ## USB control transfers -/

/-- The parts of `ipxe/usb.h` used by the request macros: the direction, type
and recipient bits and the `USB_REQUEST_TYPE ( type )` macro.  The header is
not part of the sources at hand, so the encodings are parameters. -/
structure UsbEncoding where
  USB_DIR_OUT : Nat
  USB_DIR_IN : Nat
  USB_TYPE_VENDOR : Nat
  USB_RECIP_DEVICE : Nat
  USB_REQUEST_TYPE : Nat → Nat

/-- The encodings of the USB 2.0 setup packet as `ipxe/usb.h` fixes them. -/
def ipxe_usb : UsbEncoding where
  USB_DIR_OUT := 0 <<< 7
  USB_DIR_IN := 1 <<< 7
  USB_TYPE_VENDOR := 2 <<< 5
  USB_RECIP_DEVICE := 0 <<< 0
  USB_REQUEST_TYPE := fun type => type <<< 8

/-- Register write command -/
def SMSCUSB_REGISTER_WRITE (c : UsbEncoding) : Nat :=
  c.USB_DIR_OUT ||| c.USB_TYPE_VENDOR ||| c.USB_RECIP_DEVICE ||| c.USB_REQUEST_TYPE 0xa0

/-- Register read command -/
def SMSCUSB_REGISTER_READ (c : UsbEncoding) : Nat :=
  c.USB_DIR_IN ||| c.USB_TYPE_VENDOR ||| c.USB_RECIP_DEVICE ||| c.USB_REQUEST_TYPE 0xa1

/-- Get statistics command -/
def SMSCUSB_GET_STATISTICS (c : UsbEncoding) : Nat :=
  c.USB_DIR_IN ||| c.USB_TYPE_VENDOR ||| c.USB_RECIP_DEVICE ||| c.USB_REQUEST_TYPE 0xa2

/-- One call of `usb_control`: the request, value and index fields, the
contents of the data buffer at the time of the call, and the length. -/
structure ControlTransfer where
  request : Nat
  value : Nat
  index : Nat
  data : List Nat
  len : Nat
  deriving DecidableEq, Repr

/-- A USB device as seen through its control endpoint: `control` is the
behaviour of the device and of the transport below `usb_control` (status code,
contents of the data buffer after the transfer, next device state), `state` is
the current device state, and `transfers` records every control transfer
issued so far, oldest first. -/
structure usb_device (σ : Type) where
  control : σ → ControlTransfer → Int × List Nat × σ
  state : σ
  transfers : List ControlTransfer

/-- Modelled from the spec: `usb_control` of `ipxe/usb.h` (not part of the
sources at hand): issue one control transfer.  Returns the status code, the
data buffer after the transfer, and the device afterwards. -/
def usb_control {σ : Type} (usb : usb_device σ) (request value index : Nat)
    (data : List Nat) (len : Nat) : Int × List Nat × usb_device σ :=
  let t : ControlTransfer := ⟨request, value, index, data, len⟩
  let r := usb.control usb.state t
  (r.1, r.2.1, { usb with state := r.2.2, transfers := usb.transfers ++ [t] })

/-- An SMSC USB device (the fields the register accessors touch). -/
structure smscusb_device (σ : Type) where
  usb : usb_device σ
  mii_base : Nat
  int_sts : Nat

/-! ## Register accessors -/

/-- Write register (without byte-swapping).  `&value` is handed to
`usb_control` with `sizeof ( value )`: the data buffer is the four storage
bytes of `value`.  The `DBGCIO` and `DBGC` lines only print and are left
out. -/
def smscusb_raw_writel {σ : Type} (e : ByteOrder) (c : UsbEncoding)
    (smscusb : smscusb_device σ) (address : Nat) (value : Nat) :
    Int × smscusb_device σ :=
  let r := usb_control smscusb.usb (SMSCUSB_REGISTER_WRITE c) 0 address (store32 e value) 4
  let smscusb1 := { smscusb with usb := r.2.2 }
  if r.1 ≠ 0 then (r.1, smscusb1) else (0, smscusb1)

/-- Write register.  The value is converted with `cpu_to_le32` and then
written with `smscusb_raw_writel`. -/
def smscusb_writel {σ : Type} (e : ByteOrder) (c : UsbEncoding)
    (smscusb : smscusb_device σ) (address : Nat) (value : Nat) :
    Int × smscusb_device σ :=
  let r := smscusb_raw_writel e c smscusb address (cpu_to_le32 e value)
  if r.1 ≠ 0 then (r.1, r.2) else (0, r.2)

/-- Read register (without byte-swapping).  `value` is the content of the
caller's `uint32_t` before the call; the second component of the result is its
content afterwards. -/
def smscusb_raw_readl {σ : Type} (e : ByteOrder) (c : UsbEncoding)
    (smscusb : smscusb_device σ) (address : Nat) (value : Nat) :
    Int × Nat × smscusb_device σ :=
  let r := usb_control smscusb.usb (SMSCUSB_REGISTER_READ c) 0 address (store32 e value) 4
  let smscusb1 := { smscusb with usb := r.2.2 }
  if r.1 ≠ 0 then (r.1, load32 e r.2.1, smscusb1) else (0, load32 e r.2.1, smscusb1)

/-- Read register.  `le32_to_cpus ( value )` converts the caller's `uint32_t`
in place, after a successful raw read only. -/
def smscusb_readl {σ : Type} (e : ByteOrder) (c : UsbEncoding)
    (smscusb : smscusb_device σ) (address : Nat) (value : Nat) :
    Int × Nat × smscusb_device σ :=
  let r := smscusb_raw_readl e c smscusb address value
  if r.1 ≠ 0 then (r.1, r.2.1, r.2.2) else (0, le32_to_cpu e r.2.1, r.2.2)

/-- A register file behind the control endpoint: a register-write request
stores the payload bytes under the index, any other request returns the bytes
stored under the index (four zero bytes when nothing was stored). -/
def regfile (c : UsbEncoding) : List (Nat × List Nat) → ControlTransfer →
    Int × List Nat × List (Nat × List Nat) :=
  fun regs t =>
    if t.request = SMSCUSB_REGISTER_WRITE c then
      (0, t.data, (t.index, t.data.take t.len) :: regs)
    else
      (0, ((regs.lookup t.index).getD [0, 0, 0, 0]).take t.len, regs)

/-- An SMSC USB device with no transfers issued yet. -/
def fresh {σ : Type} (control : σ → ControlTransfer → Int × List Nat × σ) (s : σ) :
    smscusb_device σ :=
  { usb := { control := control, state := s, transfers := [] }, mii_base := 0, int_sts := 0 }

/-- The payload of the most recent control transfer: the first `len` bytes
of its data buffer (empty when no transfer was issued). -/
def last_payload {σ : Type} (usb : usb_device σ) : List Nat :=
  match usb.transfers.getLast? with
  | some t => t.data.take t.len
  | none => []

/-- The bytes the device hands back when the register at `address` is read
with `smscusb_raw_readl`, the caller's `uint32_t` holding `value` beforehand. -/
def read_reply {σ : Type} (e : ByteOrder) (c : UsbEncoding) (smscusb : smscusb_device σ)
    (address : Nat) (value : Nat) : List Nat :=
  (usb_control smscusb.usb (SMSCUSB_REGISTER_READ c) 0 address (store32 e value) 4).2.1

/-- The status code with which the device answers a register write of the
given storage bytes. -/
def write_status {σ : Type} (c : UsbEncoding) (smscusb : smscusb_device σ)
    (address : Nat) (bytes : List Nat) : Int :=
  (usb_control smscusb.usb (SMSCUSB_REGISTER_WRITE c) 0 address bytes 4).1

/-- The status code with which the device answers a register read. -/
def read_status {σ : Type} (e : ByteOrder) (c : UsbEncoding) (smscusb : smscusb_device σ)
    (address : Nat) (value : Nat) : Int :=
  (usb_control smscusb.usb (SMSCUSB_REGISTER_READ c) 0 address (store32 e value) 4).1

/-- A device that answers every control transfer with status 0 and the given
bytes in the data buffer. -/
def replying (bytes : List Nat) : Unit → ControlTransfer → Int × List Nat × Unit :=
  fun _ _ => (0, bytes, ())

/-! ## Register bit fields -/

/-- EEPROM command register offset -/
def SMSCUSB_E2P_CMD : Nat := 0x000

/-- EPC busy -/
def SMSCUSB_E2P_CMD_EPC_BSY : Nat := 0x80000000

/-- READ command -/
def SMSCUSB_E2P_CMD_EPC_CMD_READ : Nat := 0x00000000

/-- EPC address -/
def SMSCUSB_E2P_CMD_EPC_ADDR (addr : Nat) : Nat := addr <<< 0

/-- EEPROM data register offset -/
def SMSCUSB_E2P_DATA : Nat := 0x004

/-- EEPROM data -/
def SMSCUSB_E2P_DATA_GET (e2p_data : Nat) : Nat := (e2p_data >>> 0) &&& 0xff

/-- MAC address EEPROM address -/
def SMSCUSB_EEPROM_MAC : Nat := 0x01

/-- MII access register offset -/
def SMSCUSB_MII_ACCESS : Nat := 0x000

/-- PHY address -/
def SMSCUSB_MII_ACCESS_PHY_ADDRESS : Nat := 0x00000800

/-- MII register -/
def SMSCUSB_MII_ACCESS_MIIRINDA (addr : Nat) : Nat := addr <<< 6

/-- MII write -/
def SMSCUSB_MII_ACCESS_MIIWNR : Nat := 0x00000002

/-- MII busy -/
def SMSCUSB_MII_ACCESS_MIIBZY : Nat := 0x00000001

/-- MII data register offset -/
def SMSCUSB_MII_DATA : Nat := 0x004

/-- Set data -/
def SMSCUSB_MII_DATA_SET (data : Nat) : Nat := data <<< 0

/-- Get data -/
def SMSCUSB_MII_DATA_GET (mii_data : Nat) : Nat := (mii_data >>> 0) &&& 0xffff

/-- Address valid -/
def SMSCUSB_ADDR_FILTH_VALID : Nat := 0x80000000

/-- Modelled from the spec: `ETH_ALEN` of `ipxe/if_ether.h` (not part of the
sources at hand), the length of a MAC address: exactly 6 bytes. -/
def ETH_ALEN : Nat := 6

/-- MAC address: the storage of `union smscusb_mac`.  The packed register
pair `addr` ( `l` at offset 0, `h` at offset 4 ) and the byte array `raw`
( offsets 0 to 5 ) share the same bytes; the union is 8 bytes long. -/
structure smscusb_mac where
  mem : List Nat
  deriving DecidableEq, Repr

namespace smscusb_mac

/-- A union cleared with `memset ( &mac, 0, sizeof ( mac ) )`. -/
def zero : smscusb_mac := ⟨List.replicate 8 0⟩

/-- Read of `mac.raw`. -/
def raw (mac : smscusb_mac) : List Nat := mac.mem.take ETH_ALEN

/-- Result of `memcpy ( mac.raw, src, ETH_ALEN )`. -/
def set_raw (mac : smscusb_mac) (src : List Nat) : smscusb_mac :=
  ⟨(src.take ETH_ALEN).map (· % 256) ++ mac.mem.drop ETH_ALEN⟩

/-- Read of `mac.addr.l`. -/
def l (e : ByteOrder) (mac : smscusb_mac) : Nat := load32 e (mac.mem.take 4)

/-- Read of `mac.addr.h`. -/
def h (e : ByteOrder) (mac : smscusb_mac) : Nat := load32 e ((mac.mem.drop 4).take 4)

/-- Result of the assignment `mac.addr.l = v`. -/
def set_l (e : ByteOrder) (mac : smscusb_mac) (v : Nat) : smscusb_mac :=
  ⟨store32 e v ++ mac.mem.drop 4⟩

/-- Result of the assignment `mac.addr.h = v`. -/
def set_h (e : ByteOrder) (mac : smscusb_mac) (v : Nat) : smscusb_mac :=
  ⟨mac.mem.take 4 ++ store32 e v ++ mac.mem.drop 8⟩

end smscusb_mac

/-! ## Byte-order lemmas -/

theorem le_value_le_bytes (v : Nat) : le_value (le_bytes v) = v % 4294967296 := by
  simp only [le_value, le_bytes, List.getD_cons_zero, List.getD_cons_succ]
  omega

theorem be_value_be_bytes (v : Nat) : be_value (be_bytes v) = v % 4294967296 := by
  simp only [be_value, be_bytes, List.getD_cons_zero, List.getD_cons_succ]
  omega

theorem load32_store32 (e : ByteOrder) (v : Nat) : load32 e (store32 e v) = v % 4294967296 := by
  cases e
  · exact le_value_le_bytes v
  · exact be_value_be_bytes v

theorem byte_split (a b c d : Nat) (ha : a < 256) (hb : b < 256) (hc : c < 256)
    (hd : d < 256) :
    (a + 256 * b + 65536 * c + 16777216 * d) % 256 = a ∧
    (a + 256 * b + 65536 * c + 16777216 * d) / 256 % 256 = b ∧
    (a + 256 * b + 65536 * c + 16777216 * d) / 65536 % 256 = c ∧
    (a + 256 * b + 65536 * c + 16777216 * d) / 16777216 % 256 = d := by
  refine ⟨?_, ?_, ?_, ?_⟩ <;> omega

theorem le_bytes_of_bytes (a b c d : Nat) (ha : a < 256) (hb : b < 256) (hc : c < 256)
    (hd : d < 256) : le_bytes (a + 256 * b + 65536 * c + 16777216 * d) = [a, b, c, d] := by
  obtain ⟨h0, h1, h2, h3⟩ := byte_split a b c d ha hb hc hd
  simp only [le_bytes, h0, h1, h2, h3]

theorem be_bytes_of_bytes (a b c d : Nat) (ha : a < 256) (hb : b < 256) (hc : c < 256)
    (hd : d < 256) : be_bytes (a + 256 * b + 65536 * c + 16777216 * d) = [d, c, b, a] := by
  obtain ⟨h0, h1, h2, h3⟩ := byte_split a b c d ha hb hc hd
  simp only [be_bytes, h0, h1, h2, h3]

theorem bswap_32_eq (v : Nat) :
    bswap_32 v = v / 16777216 % 256 + 256 * (v / 65536 % 256) + 65536 * (v / 256 % 256)
      + 16777216 * (v % 256) := by
  simp only [bswap_32]
  omega

theorem bswap_32_of_bytes (a b c d : Nat) (ha : a < 256) (hb : b < 256) (hc : c < 256)
    (hd : d < 256) :
    bswap_32 (a + 256 * b + 65536 * c + 16777216 * d) = d + 256 * c + 65536 * b + 16777216 * a := by
  obtain ⟨h0, h1, h2, h3⟩ := byte_split a b c d ha hb hc hd
  rw [bswap_32_eq, h0, h1, h2, h3]

theorem store32_cpu_to_le32 (e : ByteOrder) (v : Nat) :
    store32 e (cpu_to_le32 e v) = le_bytes v := by
  cases e
  · simp only [store32, cpu_to_le32, le_bytes, List.cons.injEq, and_true]
    omega
  · simp only [store32, cpu_to_le32]
    rw [bswap_32_eq, be_bytes_of_bytes _ _ _ _ (Nat.mod_lt _ (by norm_num))
      (Nat.mod_lt _ (by norm_num)) (Nat.mod_lt _ (by norm_num)) (Nat.mod_lt _ (by norm_num))]
    rfl

theorem le32_to_cpu_load32 (e : ByteOrder) (bs : List Nat) :
    le32_to_cpu e (load32 e bs) = le_value bs := by
  cases e
  · simp only [le32_to_cpu, load32, le_value]
    omega
  · simp only [le32_to_cpu, load32, be_value]
    rw [bswap_32_of_bytes _ _ _ _ (Nat.mod_lt _ (by norm_num))
      (Nat.mod_lt _ (by norm_num)) (Nat.mod_lt _ (by norm_num)) (Nat.mod_lt _ (by norm_num))]
    simp only [le_value]

theorem bswap_32_bswap_32 (v : Nat) : bswap_32 (bswap_32 v) = v % 4294967296 := by
  rw [bswap_32_eq v, bswap_32_of_bytes _ _ _ _ (Nat.mod_lt _ (by norm_num))
      (Nat.mod_lt _ (by norm_num)) (Nat.mod_lt _ (by norm_num)) (Nat.mod_lt _ (by norm_num))]
  omega

theorem le32_to_cpu_cpu_to_le32 (e : ByteOrder) (v : Nat) :
    le32_to_cpu e (cpu_to_le32 e v) = v % 4294967296 := by
  cases e
  · simp only [le32_to_cpu, cpu_to_le32]
    omega
  · simp only [le32_to_cpu, cpu_to_le32]
    exact bswap_32_bswap_32 v

theorem le_bytes_eq_masks (v : Nat) :
    le_bytes v = [v &&& 0xff, (v >>> 8) &&& 0xff, (v >>> 16) &&& 0xff, (v >>> 24) &&& 0xff] := by
  have h : ∀ x : Nat, x &&& 0xff = x % 256 := fun x => Nat.and_pow_two_sub_one_eq_mod x 8
  simp only [le_bytes, h, Nat.shiftRight_eq_div_pow]

/-! ## Register accessors: what is transferred -/

theorem smscusb_raw_writel_transfers {σ : Type} (e : ByteOrder) (c : UsbEncoding)
    (smscusb : smscusb_device σ) (a v : Nat) :
    (smscusb_raw_writel e c smscusb a v).2.usb.transfers = smscusb.usb.transfers ++
      [{ request := SMSCUSB_REGISTER_WRITE c, value := 0, index := a, data := store32 e v,
         len := 4 }] := by
  unfold smscusb_raw_writel usb_control
  dsimp only
  split_ifs <;> rfl

theorem smscusb_raw_writel_status {σ : Type} (e : ByteOrder) (c : UsbEncoding)
    (smscusb : smscusb_device σ) (a v : Nat) :
    (smscusb_raw_writel e c smscusb a v).1 = write_status c smscusb a (store32 e v) := by
  unfold smscusb_raw_writel write_status
  dsimp only
  split_ifs with h
  · rfl
  · simp only [ne_eq, not_not] at h
    exact h.symm

theorem smscusb_raw_writel_state {σ : Type} (e : ByteOrder) (c : UsbEncoding)
    (smscusb : smscusb_device σ) (a v : Nat) :
    (smscusb_raw_writel e c smscusb a v).2.usb.state =
      (smscusb.usb.control smscusb.usb.state
        { request := SMSCUSB_REGISTER_WRITE c, value := 0, index := a, data := store32 e v,
          len := 4 }).2.2 := by
  unfold smscusb_raw_writel usb_control
  dsimp only
  split_ifs <;> rfl

theorem smscusb_writel_eq {σ : Type} (e : ByteOrder) (c : UsbEncoding)
    (smscusb : smscusb_device σ) (a v : Nat) :
    smscusb_writel e c smscusb a v = smscusb_raw_writel e c smscusb a (cpu_to_le32 e v) := by
  unfold smscusb_writel
  dsimp only
  split_ifs with h
  · rfl
  · simp only [ne_eq, not_not] at h
    exact Prod.ext h.symm rfl

theorem smscusb_raw_readl_transfers {σ : Type} (e : ByteOrder) (c : UsbEncoding)
    (smscusb : smscusb_device σ) (a v : Nat) :
    (smscusb_raw_readl e c smscusb a v).2.2.usb.transfers = smscusb.usb.transfers ++
      [{ request := SMSCUSB_REGISTER_READ c, value := 0, index := a, data := store32 e v,
         len := 4 }] := by
  unfold smscusb_raw_readl usb_control
  dsimp only
  split_ifs <;> rfl

theorem smscusb_raw_readl_status {σ : Type} (e : ByteOrder) (c : UsbEncoding)
    (smscusb : smscusb_device σ) (a v : Nat) :
    (smscusb_raw_readl e c smscusb a v).1 = read_status e c smscusb a v := by
  unfold smscusb_raw_readl read_status
  dsimp only
  split_ifs with h
  · rfl
  · simp only [ne_eq, not_not] at h
    exact h.symm

theorem smscusb_raw_readl_value {σ : Type} (e : ByteOrder) (c : UsbEncoding)
    (smscusb : smscusb_device σ) (a v : Nat) :
    (smscusb_raw_readl e c smscusb a v).2.1 = load32 e (read_reply e c smscusb a v) := by
  unfold smscusb_raw_readl read_reply
  dsimp only
  split_ifs <;> rfl

theorem smscusb_raw_readl_state {σ : Type} (e : ByteOrder) (c : UsbEncoding)
    (smscusb : smscusb_device σ) (a v : Nat) :
    (smscusb_raw_readl e c smscusb a v).2.2.usb.state =
      (smscusb.usb.control smscusb.usb.state
        { request := SMSCUSB_REGISTER_READ c, value := 0, index := a, data := store32 e v,
          len := 4 }).2.2 := by
  unfold smscusb_raw_readl usb_control
  dsimp only
  split_ifs <;> rfl

theorem smscusb_readl_device {σ : Type} (e : ByteOrder) (c : UsbEncoding)
    (smscusb : smscusb_device σ) (a v : Nat) :
    (smscusb_readl e c smscusb a v).2.2 = (smscusb_raw_readl e c smscusb a v).2.2 := by
  unfold smscusb_readl
  dsimp only
  split_ifs <;> rfl

theorem smscusb_readl_status {σ : Type} (e : ByteOrder) (c : UsbEncoding)
    (smscusb : smscusb_device σ) (a v : Nat) :
    (smscusb_readl e c smscusb a v).1 = read_status e c smscusb a v := by
  rw [← smscusb_raw_readl_status]
  unfold smscusb_readl
  dsimp only
  split_ifs with h
  · rfl
  · simp only [ne_eq, not_not] at h
    exact h.symm

theorem smscusb_readl_value {σ : Type} (e : ByteOrder) (c : UsbEncoding)
    (smscusb : smscusb_device σ) (a v : Nat) :
    (smscusb_readl e c smscusb a v).2.1 =
      if read_status e c smscusb a v = 0 then le_value (read_reply e c smscusb a v)
      else load32 e (read_reply e c smscusb a v) := by
  rw [← smscusb_raw_readl_status, ← smscusb_raw_readl_value]
  unfold smscusb_readl
  by_cases h : (smscusb_raw_readl e c smscusb a v).1 = 0
  · simp only [h, ne_eq, not_true_eq_false, if_false, if_true]
    rw [smscusb_raw_readl_value, le32_to_cpu_load32]
  · simp only [h, ne_eq, not_false_eq_true, if_true, if_false]

theorem last_payload_append {σ : Type} (usb : usb_device σ) (ts : List ControlTransfer)
    (t : ControlTransfer) (h : usb.transfers = ts ++ [t]) :
    last_payload usb = t.data.take t.len := by
  simp only [last_payload, h, List.getLast?_append, List.getLast?_singleton]
  rfl

/-- C1: register round trip.  For every 32-bit value `v`, every address `a`
and either host byte order: when `smscusb_writel a v` succeeds, and the
following `smscusb_readl a` succeeds with the device handing back exactly the
payload bytes the write transferred, the value read is `v`. -/
theorem smscusb_writel_readl_round_trip {σ : Type} (e : ByteOrder) (c : UsbEncoding)
    (smscusb : smscusb_device σ) (a v v0 : Nat) (hv : v < 2 ^ 32)
    (_hw : (smscusb_writel e c smscusb a v).1 = 0)
    (hr : (smscusb_readl e c (smscusb_writel e c smscusb a v).2 a v0).1 = 0)
    (hdev : read_reply e c (smscusb_writel e c smscusb a v).2 a v0 =
      last_payload (smscusb_writel e c smscusb a v).2.usb) :
    (smscusb_readl e c (smscusb_writel e c smscusb a v).2 a v0).2.1 = v := by
  have hp : last_payload (smscusb_writel e c smscusb a v).2.usb = le_bytes v := by
    rw [last_payload_append _ _ _
      (by rw [smscusb_writel_eq]; exact smscusb_raw_writel_transfers e c smscusb a _)]
    simp only [store32_cpu_to_le32]
    rfl
  rw [smscusb_readl_status] at hr
  rw [smscusb_readl_value, if_pos hr, hdev, hp, le_value_le_bytes]
  exact Nat.mod_eq_of_lt hv

/-- Witness for C1: a big-endian host writes `0x12345678` to register `0x14`
of a register file and reads it back. -/
theorem smscusb_writel_readl_round_trip_witness :
    (0x12345678 : Nat) < 2 ^ 32 ∧
    (smscusb_writel .big ipxe_usb (fresh (regfile ipxe_usb) []) 0x14 0x12345678).1 = 0 ∧
    (smscusb_readl .big ipxe_usb
      (smscusb_writel .big ipxe_usb (fresh (regfile ipxe_usb) []) 0x14 0x12345678).2
      0x14 0).1 = 0 ∧
    (smscusb_readl .big ipxe_usb
      (smscusb_writel .big ipxe_usb (fresh (regfile ipxe_usb) []) 0x14 0x12345678).2
      0x14 0).2.1 = 0x12345678 :=
  ⟨by decide, by decide, by decide,
    smscusb_writel_readl_round_trip .big ipxe_usb (fresh (regfile ipxe_usb) []) 0x14 0x12345678 0
      (by decide) (by decide) (by decide) (by decide)⟩

/-- C2: for every value `v`, every address `a` and either host byte order,
`smscusb_writel a v` appends exactly the following control transfer to the
trace: the register-write request (direction out, vendor type, device
recipient, request type `0xa0`), value field 0, index field `a`, length 4, and
as payload the bytes `v & 0xff`, `(v >> 8) & 0xff`, `(v >> 16) & 0xff`,
`(v >> 24) & 0xff` in this order, the little-endian encoding of `v`. -/
theorem smscusb_writel_wire_format {σ : Type} (e : ByteOrder) (c : UsbEncoding)
    (smscusb : smscusb_device σ) (a v : Nat) :
    (smscusb_writel e c smscusb a v).2.usb.transfers = smscusb.usb.transfers ++
      [{ request := c.USB_DIR_OUT ||| c.USB_TYPE_VENDOR ||| c.USB_RECIP_DEVICE |||
           c.USB_REQUEST_TYPE 0xa0,
         value := 0,
         index := a,
         data := [v &&& 0xff, (v >>> 8) &&& 0xff, (v >>> 16) &&& 0xff, (v >>> 24) &&& 0xff],
         len := 4 }] := by
  rw [smscusb_writel_eq, smscusb_raw_writel_transfers, store32_cpu_to_le32, le_bytes_eq_masks]
  rfl

/-- C3: no retry and verbatim failure.  For every address, value and host
byte order, each of `smscusb_writel` and `smscusb_readl` appends exactly one
control transfer, of length 4, to the trace and advances the device by that
one transfer, whatever its outcome; its return status is the status of that
transfer (so it is 0 exactly when the transfer returned 0); and when the
transfer of `smscusb_readl` fails, the output value is the received buffer
read in host order, with no byte-order conversion. -/
theorem smscusb_single_transfer_verbatim_status {σ : Type} (e : ByteOrder) (c : UsbEncoding)
    (smscusb : smscusb_device σ) (a v : Nat) :
    ((smscusb_writel e c smscusb a v).2.usb.transfers = smscusb.usb.transfers ++
        [{ request := SMSCUSB_REGISTER_WRITE c, value := 0, index := a,
           data := store32 e (cpu_to_le32 e v), len := 4 }] ∧
      (smscusb_writel e c smscusb a v).2.usb.transfers.length =
        smscusb.usb.transfers.length + 1 ∧
      (smscusb_writel e c smscusb a v).2.usb.state =
        (smscusb.usb.control smscusb.usb.state
          { request := SMSCUSB_REGISTER_WRITE c, value := 0, index := a,
            data := store32 e (cpu_to_le32 e v), len := 4 }).2.2 ∧
      (smscusb_writel e c smscusb a v).1 =
        (smscusb.usb.control smscusb.usb.state
          { request := SMSCUSB_REGISTER_WRITE c, value := 0, index := a,
            data := store32 e (cpu_to_le32 e v), len := 4 }).1 ∧
      ((smscusb_writel e c smscusb a v).1 = 0 ↔
        (smscusb.usb.control smscusb.usb.state
          { request := SMSCUSB_REGISTER_WRITE c, value := 0, index := a,
            data := store32 e (cpu_to_le32 e v), len := 4 }).1 = 0)) ∧
    ((smscusb_readl e c smscusb a v).2.2.usb.transfers = smscusb.usb.transfers ++
        [{ request := SMSCUSB_REGISTER_READ c, value := 0, index := a,
           data := store32 e v, len := 4 }] ∧
      (smscusb_readl e c smscusb a v).2.2.usb.transfers.length =
        smscusb.usb.transfers.length + 1 ∧
      (smscusb_readl e c smscusb a v).2.2.usb.state =
        (smscusb.usb.control smscusb.usb.state
          { request := SMSCUSB_REGISTER_READ c, value := 0, index := a,
            data := store32 e v, len := 4 }).2.2 ∧
      (smscusb_readl e c smscusb a v).1 =
        (smscusb.usb.control smscusb.usb.state
          { request := SMSCUSB_REGISTER_READ c, value := 0, index := a,
            data := store32 e v, len := 4 }).1 ∧
      ((smscusb_readl e c smscusb a v).1 = 0 ↔
        (smscusb.usb.control smscusb.usb.state
          { request := SMSCUSB_REGISTER_READ c, value := 0, index := a,
            data := store32 e v, len := 4 }).1 = 0) ∧
      (smscusb_readl e c smscusb a v).2.1 =
        if (smscusb.usb.control smscusb.usb.state
          { request := SMSCUSB_REGISTER_READ c, value := 0, index := a,
            data := store32 e v, len := 4 }).1 = 0
        then le32_to_cpu e (load32 e (smscusb.usb.control smscusb.usb.state
          { request := SMSCUSB_REGISTER_READ c, value := 0, index := a,
            data := store32 e v, len := 4 }).2.1)
        else load32 e (smscusb.usb.control smscusb.usb.state
          { request := SMSCUSB_REGISTER_READ c, value := 0, index := a,
            data := store32 e v, len := 4 }).2.1) := by
  have hw := smscusb_raw_writel_transfers e c smscusb a (cpu_to_le32 e v)
  have hws : (smscusb_writel e c smscusb a v).1 = _ :=
    (congrArg Prod.fst (smscusb_writel_eq e c smscusb a v)).trans
      (smscusb_raw_writel_status e c smscusb a (cpu_to_le32 e v))
  have hr := smscusb_raw_readl_transfers e c smscusb a v
  have hrs := smscusb_readl_status e c smscusb a v
  refine ⟨⟨?_, ?_, ?_, hws, ?_⟩, ⟨?_, ?_, ?_, hrs, ?_, ?_⟩⟩
  · rw [smscusb_writel_eq]; exact hw
  · rw [smscusb_writel_eq, hw, List.length_append]; rfl
  · rw [smscusb_writel_eq]; exact smscusb_raw_writel_state e c smscusb a _
  · rw [hws]; rfl
  · rw [smscusb_readl_device]; exact hr
  · rw [smscusb_readl_device, hr, List.length_append]; rfl
  · rw [smscusb_readl_device]; exact smscusb_raw_readl_state e c smscusb a v
  · rw [hrs]; rfl
  · rw [smscusb_readl_value]
    show _ = if read_status e c smscusb a v = 0
      then le32_to_cpu e (load32 e (read_reply e c smscusb a v))
      else load32 e (read_reply e c smscusb a v)
    rw [le32_to_cpu_load32]

/-- Counterexample to C4 as stated: on a big-endian host `smscusb_raw_writel`
given `0x12345678` transfers the bytes `12 34 56 78`, which is not the
little-endian encoding `78 56 34 12` of its argument; and `smscusb_raw_readl`
receiving the little-endian payload `78 56 34 12` of `0x12345678` returns
`0x78563412`, not the host-order decoding of that payload. -/
theorem smscusb_raw_accessors_skip_conversion :
    last_payload (smscusb_raw_writel .big ipxe_usb (fresh (replying []) ()) 0x14 0x12345678).2.usb
      = [0x12, 0x34, 0x56, 0x78] ∧
    last_payload (smscusb_raw_writel .big ipxe_usb (fresh (replying []) ()) 0x14 0x12345678).2.usb
      ≠ le_bytes 0x12345678 ∧
    (smscusb_raw_readl .big ipxe_usb (fresh (replying [0x78, 0x56, 0x34, 0x12]) ()) 0x14 0).1
      = 0 ∧
    (smscusb_raw_readl .big ipxe_usb (fresh (replying [0x78, 0x56, 0x34, 0x12]) ()) 0x14 0).2.1
      = 0x78563412 ∧
    (smscusb_raw_readl .big ipxe_usb (fresh (replying [0x78, 0x56, 0x34, 0x12]) ()) 0x14 0).2.1
      ≠ le_value [0x78, 0x56, 0x34, 0x12] := by
  decide

/-- C4, amended: byte-order conversion happens in `smscusb_writel` and
`smscusb_readl`, once each, and not in the raw accessors.  For every value,
address and host byte order: `smscusb_writel` is `smscusb_raw_writel` applied
to `cpu_to_le32 ( value )` and transfers the little-endian encoding of its
argument; `smscusb_readl` returns, when the transfer succeeds, `le32_to_cpu`
of what `smscusb_raw_readl` returned, which is the decoding of the received
little-endian payload; `smscusb_raw_writel` transfers the storage bytes of its argument
unchanged and `smscusb_raw_readl` returns the received bytes read as host
storage, which are the little-endian encoding and decoding only on a
little-endian host. -/
theorem smscusb_conversion_in_cooked_accessors_only {σ : Type} (e : ByteOrder)
    (c : UsbEncoding) (smscusb : smscusb_device σ) (a v : Nat) :
    (smscusb_writel e c smscusb a v = smscusb_raw_writel e c smscusb a (cpu_to_le32 e v) ∧
      last_payload (smscusb_writel e c smscusb a v).2.usb = le_bytes v) ∧
    ((smscusb_readl e c smscusb a v).2.1 =
        (if (smscusb_raw_readl e c smscusb a v).1 = 0
          then le32_to_cpu e (smscusb_raw_readl e c smscusb a v).2.1
          else (smscusb_raw_readl e c smscusb a v).2.1) ∧
      (smscusb_readl e c smscusb a v).2.1 =
        (if read_status e c smscusb a v = 0 then le_value (read_reply e c smscusb a v)
          else load32 e (read_reply e c smscusb a v))) ∧
    (last_payload (smscusb_raw_writel e c smscusb a v).2.usb = store32 e v ∧
      (smscusb_raw_readl e c smscusb a v).2.1 = load32 e (read_reply e c smscusb a v)) ∧
    (store32 .little v = le_bytes v ∧
      load32 .little (read_reply e c smscusb a v) = le_value (read_reply e c smscusb a v)) := by
  refine ⟨⟨smscusb_writel_eq e c smscusb a v, ?_⟩, ⟨?_, smscusb_readl_value e c smscusb a v⟩,
    ⟨?_, smscusb_raw_readl_value e c smscusb a v⟩, ⟨rfl, rfl⟩⟩
  · rw [last_payload_append _ _ _
      (by rw [smscusb_writel_eq]; exact smscusb_raw_writel_transfers e c smscusb a _)]
    simp only [store32_cpu_to_le32]
    rfl
  · rw [smscusb_readl_value, smscusb_raw_readl_status, smscusb_raw_readl_value,
      le32_to_cpu_load32]
  · rw [last_payload_append _ _ _ (smscusb_raw_writel_transfers e c smscusb a v)]
    cases e <;> rfl

/-! ## Register bit fields: MII, EEPROM and filter slots -/

theorem and_0xff (x : Nat) : x &&& 0xff = x % 256 := Nat.and_pow_two_sub_one_eq_mod x 8

theorem and_0xffff (x : Nat) : x &&& 0xffff = x % 65536 := Nat.and_pow_two_sub_one_eq_mod x 16

/-- C6: MII access command encoding.  For every MII register index `i` in
0..31, the read command word `PHY_ADDRESS | MIIRINDA ( i ) | MIIBZY` and the
write command word `PHY_ADDRESS | MIIRINDA ( i ) | MIIWNR | MIIBZY` have the
busy bit (bit 0) set, the write bit (bit 1) set exactly for the write, the PHY
address bit `0x800` and nothing else outside the index field and the two
flags, and the index in bits 6..10 overlapping no other field, so that
`(word >> 6) & 0x1f = i`; the words are `0x800 + 64 * i + 1` and
`0x800 + 64 * i + 3`, and distinct (index, direction) pairs give distinct
words. -/
theorem mii_access_cmd_encoding (i : Nat) (hi : i < 32) (rd wr : Nat)
    (hrd : rd = SMSCUSB_MII_ACCESS_PHY_ADDRESS ||| SMSCUSB_MII_ACCESS_MIIRINDA i |||
      SMSCUSB_MII_ACCESS_MIIBZY)
    (hwr : wr = SMSCUSB_MII_ACCESS_PHY_ADDRESS ||| SMSCUSB_MII_ACCESS_MIIRINDA i |||
      SMSCUSB_MII_ACCESS_MIIWNR ||| SMSCUSB_MII_ACCESS_MIIBZY) :
    (rd.testBit 0 = true ∧ wr.testBit 0 = true) ∧
    (rd &&& SMSCUSB_MII_ACCESS_MIIBZY = SMSCUSB_MII_ACCESS_MIIBZY ∧
      wr &&& SMSCUSB_MII_ACCESS_MIIBZY = SMSCUSB_MII_ACCESS_MIIBZY) ∧
    (rd.testBit 1 = false ∧ wr.testBit 1 = true) ∧
    (rd &&& SMSCUSB_MII_ACCESS_MIIWNR = 0 ∧
      wr &&& SMSCUSB_MII_ACCESS_MIIWNR = SMSCUSB_MII_ACCESS_MIIWNR) ∧
    (rd &&& SMSCUSB_MII_ACCESS_PHY_ADDRESS = 0x800 ∧
      wr &&& SMSCUSB_MII_ACCESS_PHY_ADDRESS = 0x800) ∧
    (rd &&& (0xffffffff ^^^ (0x1f <<< 6) ^^^ 0x3) = 0x800 ∧
      wr &&& (0xffffffff ^^^ (0x1f <<< 6) ^^^ 0x3) = 0x800) ∧
    ((rd >>> 6) &&& 0x1f = i ∧ (wr >>> 6) &&& 0x1f = i) ∧
    (SMSCUSB_MII_ACCESS_MIIRINDA i &&& (0x1f <<< 6) = SMSCUSB_MII_ACCESS_MIIRINDA i ∧
      SMSCUSB_MII_ACCESS_MIIRINDA i &&& SMSCUSB_MII_ACCESS_PHY_ADDRESS = 0 ∧
      SMSCUSB_MII_ACCESS_MIIRINDA i &&& SMSCUSB_MII_ACCESS_MIIWNR = 0 ∧
      SMSCUSB_MII_ACCESS_MIIRINDA i &&& SMSCUSB_MII_ACCESS_MIIBZY = 0) ∧
    (rd = 0x800 + 64 * i + 1 ∧ wr = 0x800 + 64 * i + 3) ∧
    (∀ j, j < 32 →
      (rd = SMSCUSB_MII_ACCESS_PHY_ADDRESS ||| SMSCUSB_MII_ACCESS_MIIRINDA j |||
        SMSCUSB_MII_ACCESS_MIIBZY → i = j) ∧
      (wr = SMSCUSB_MII_ACCESS_PHY_ADDRESS ||| SMSCUSB_MII_ACCESS_MIIRINDA j |||
        SMSCUSB_MII_ACCESS_MIIWNR ||| SMSCUSB_MII_ACCESS_MIIBZY → i = j) ∧
      rd ≠ SMSCUSB_MII_ACCESS_PHY_ADDRESS ||| SMSCUSB_MII_ACCESS_MIIRINDA j |||
        SMSCUSB_MII_ACCESS_MIIWNR ||| SMSCUSB_MII_ACCESS_MIIBZY ∧
      wr ≠ SMSCUSB_MII_ACCESS_PHY_ADDRESS ||| SMSCUSB_MII_ACCESS_MIIRINDA j |||
        SMSCUSB_MII_ACCESS_MIIBZY) := by
  have keyr : ∀ k, k < 32 → SMSCUSB_MII_ACCESS_PHY_ADDRESS ||| SMSCUSB_MII_ACCESS_MIIRINDA k |||
      SMSCUSB_MII_ACCESS_MIIBZY = 0x800 + 64 * k + 1 := by decide
  have keyw : ∀ k, k < 32 → SMSCUSB_MII_ACCESS_PHY_ADDRESS ||| SMSCUSB_MII_ACCESS_MIIRINDA k |||
      SMSCUSB_MII_ACCESS_MIIWNR ||| SMSCUSB_MII_ACCESS_MIIBZY = 0x800 + 64 * k + 3 := by decide
  subst hrd hwr
  refine ⟨?_, ?_, ?_, ?_, ?_, ?_, ?_, ?_, ⟨keyr i hi, keyw i hi⟩, ?_⟩
  · revert i; decide
  · revert i; decide
  · revert i; decide
  · revert i; decide
  · revert i; decide
  · revert i; decide
  · revert i; decide
  · revert i; decide
  · intro j hj
    rw [keyr i hi, keyw i hi, keyr j hj, keyw j hj]
    refine ⟨fun h => ?_, fun h => ?_, ?_, ?_⟩ <;> omega

/-- Witness for C6: the command words for the PHY interrupt mask register,
MII register 30, are `0xf81` for a read and `0xf83` for a write. -/
theorem mii_access_cmd_encoding_witness :
    (30 : Nat) < 32 ∧
    (0xf81 : Nat) = SMSCUSB_MII_ACCESS_PHY_ADDRESS ||| SMSCUSB_MII_ACCESS_MIIRINDA 30 |||
      SMSCUSB_MII_ACCESS_MIIBZY ∧
    (0xf83 : Nat) = SMSCUSB_MII_ACCESS_PHY_ADDRESS ||| SMSCUSB_MII_ACCESS_MIIRINDA 30 |||
      SMSCUSB_MII_ACCESS_MIIWNR ||| SMSCUSB_MII_ACCESS_MIIBZY ∧
    (((0xf81 : Nat) >>> 6) &&& 0x1f = 30 ∧ ((0xf83 : Nat) >>> 6) &&& 0x1f = 30) :=
  ⟨by decide, by decide, by decide,
    (mii_access_cmd_encoding 30 (by decide) 0xf81 0xf83 (by decide) (by decide)).2.2.2.2.2.2.1⟩

/-- C7: MII data register.  `SMSCUSB_MII_DATA_GET ( r )` is `r mod 2 ^ 16`
for every `r`; for every 16-bit `d`, `SMSCUSB_MII_DATA_SET ( d )` is `d` and
`SMSCUSB_MII_DATA_GET ( SMSCUSB_MII_DATA_SET ( d ) )` is `d`. -/
theorem mii_data_get_set (r d : Nat) (hd : d < 2 ^ 16) :
    SMSCUSB_MII_DATA_GET r = r % 2 ^ 16 ∧
    SMSCUSB_MII_DATA_SET d = d ∧
    SMSCUSB_MII_DATA_GET (SMSCUSB_MII_DATA_SET d) = d := by
  simp only [SMSCUSB_MII_DATA_GET, SMSCUSB_MII_DATA_SET, Nat.shiftRight_zero,
    Nat.shiftLeft_zero, and_0xffff]
  exact ⟨by norm_num, trivial, Nat.mod_eq_of_lt hd⟩

/-- Witness for C7: register value `0xdead1234` and data `0x1234`. -/
theorem mii_data_get_set_witness :
    (0x1234 : Nat) < 2 ^ 16 ∧
    SMSCUSB_MII_DATA_GET 0xdead1234 = 0xdead1234 % 2 ^ 16 ∧
    SMSCUSB_MII_DATA_SET 0x1234 = 0x1234 ∧
    SMSCUSB_MII_DATA_GET (SMSCUSB_MII_DATA_SET 0x1234) = 0x1234 :=
  ⟨by decide, mii_data_get_set 0xdead1234 0x1234 (by decide)⟩

/-- C8: EEPROM read command for the MAC field.  For every byte index `i` in
0..5 the EEPROM address `SMSCUSB_EEPROM_MAC + i` fits in 8 bits; the command
word `EPC_BSY | EPC_CMD_READ | EPC_ADDR ( SMSCUSB_EEPROM_MAC + i )` is
`0x80000000 + 0x01 + i`, with the busy bit (bit 31) set, an address field that
does not overlap the busy bit, and low 8 bits equal to the EEPROM address;
command words of increasing byte index are strictly increasing, hence pairwise
distinct; and `SMSCUSB_E2P_DATA_GET ( r )` is `r mod 256`. -/
theorem e2p_read_cmd_encoding (i : Nat) (hi : i < 6) (r : Nat) :
    SMSCUSB_EEPROM_MAC + i < 2 ^ 8 ∧
    SMSCUSB_E2P_CMD_EPC_BSY ||| SMSCUSB_E2P_CMD_EPC_CMD_READ |||
      SMSCUSB_E2P_CMD_EPC_ADDR (SMSCUSB_EEPROM_MAC + i) = 0x80000000 + 0x01 + i ∧
    (SMSCUSB_E2P_CMD_EPC_BSY ||| SMSCUSB_E2P_CMD_EPC_CMD_READ |||
      SMSCUSB_E2P_CMD_EPC_ADDR (SMSCUSB_EEPROM_MAC + i)).testBit 31 = true ∧
    SMSCUSB_E2P_CMD_EPC_ADDR (SMSCUSB_EEPROM_MAC + i) &&& SMSCUSB_E2P_CMD_EPC_BSY = 0 ∧
    (SMSCUSB_E2P_CMD_EPC_BSY ||| SMSCUSB_E2P_CMD_EPC_CMD_READ |||
      SMSCUSB_E2P_CMD_EPC_ADDR (SMSCUSB_EEPROM_MAC + i)) &&& 0xff = SMSCUSB_EEPROM_MAC + i ∧
    (∀ j, j < 6 → i < j →
      SMSCUSB_E2P_CMD_EPC_BSY ||| SMSCUSB_E2P_CMD_EPC_CMD_READ |||
        SMSCUSB_E2P_CMD_EPC_ADDR (SMSCUSB_EEPROM_MAC + i) <
      SMSCUSB_E2P_CMD_EPC_BSY ||| SMSCUSB_E2P_CMD_EPC_CMD_READ |||
        SMSCUSB_E2P_CMD_EPC_ADDR (SMSCUSB_EEPROM_MAC + j)) ∧
    (∀ j, j < 6 →
      SMSCUSB_E2P_CMD_EPC_BSY ||| SMSCUSB_E2P_CMD_EPC_CMD_READ |||
        SMSCUSB_E2P_CMD_EPC_ADDR (SMSCUSB_EEPROM_MAC + i) =
      SMSCUSB_E2P_CMD_EPC_BSY ||| SMSCUSB_E2P_CMD_EPC_CMD_READ |||
        SMSCUSB_E2P_CMD_EPC_ADDR (SMSCUSB_EEPROM_MAC + j) → i = j) ∧
    SMSCUSB_E2P_DATA_GET r = r % 256 := by
  have key : ∀ k, k < 6 → SMSCUSB_E2P_CMD_EPC_BSY ||| SMSCUSB_E2P_CMD_EPC_CMD_READ |||
      SMSCUSB_E2P_CMD_EPC_ADDR (SMSCUSB_EEPROM_MAC + k) = 0x80000000 + 0x01 + k := by
    decide
  refine ⟨?_, key i hi, ?_, ?_, ?_, ?_, ?_, ?_⟩
  · simp only [SMSCUSB_EEPROM_MAC]; omega
  · revert i; decide
  · revert i; decide
  · revert i; decide
  · intro j hj hij
    rw [key i hi, key j hj]
    omega
  · intro j hj h
    rw [key i hi, key j hj] at h
    omega
  · simp only [SMSCUSB_E2P_DATA_GET, Nat.shiftRight_zero, and_0xff]

/-- Witness for C8: the last MAC byte, index 5, has command word `0x80000006`;
the data register value `0xabcdef42` yields the byte `0x42`. -/
theorem e2p_read_cmd_encoding_witness :
    (5 : Nat) < 6 ∧
    SMSCUSB_E2P_CMD_EPC_BSY ||| SMSCUSB_E2P_CMD_EPC_CMD_READ |||
      SMSCUSB_E2P_CMD_EPC_ADDR (SMSCUSB_EEPROM_MAC + 5) = 0x80000000 + 0x01 + 5 ∧
    SMSCUSB_E2P_DATA_GET 0xabcdef42 = 0xabcdef42 % 256 :=
  ⟨by decide, (e2p_read_cmd_encoding 5 (by decide) 0xabcdef42).2.1,
    (e2p_read_cmd_encoding 5 (by decide) 0xabcdef42).2.2.2.2.2.2.2⟩

theorem le_value_four (a b c d : Nat) (ha : a < 256) (hb : b < 256) (hc : c < 256)
    (hd : d < 256) : le_value [a, b, c, d] = a + 256 * b + 65536 * c + 16777216 * d := by
  simp only [le_value, List.getD_cons_zero, List.getD_cons_succ, Nat.mod_eq_of_lt ha,
    Nat.mod_eq_of_lt hb, Nat.mod_eq_of_lt hc, Nat.mod_eq_of_lt hd]

theorem be_value_four (a b c d : Nat) (ha : a < 256) (hb : b < 256) (hc : c < 256)
    (hd : d < 256) : be_value [a, b, c, d] = d + 256 * c + 65536 * b + 16777216 * a := by
  simp only [be_value, List.getD_cons_zero, List.getD_cons_succ, Nat.mod_eq_of_lt ha,
    Nat.mod_eq_of_lt hb, Nat.mod_eq_of_lt hc, Nat.mod_eq_of_lt hd]

theorem store32_load32 (e : ByteOrder) (a b c d : Nat) (ha : a < 256) (hb : b < 256)
    (hc : c < 256) (hd : d < 256) : store32 e (load32 e [a, b, c, d]) = [a, b, c, d] := by
  cases e
  · simp only [store32, load32]
    rw [le_value_four a b c d ha hb hc hd, le_bytes_of_bytes a b c d ha hb hc hd]
  · simp only [store32, load32]
    rw [be_value_four a b c d ha hb hc hd, be_bytes_of_bytes d c b a hd hc hb ha]

theorem store32_mod (e : ByteOrder) (v : Nat) :
    store32 e (v % 4294967296) = store32 e v := by
  cases e
  · simp only [store32, le_bytes, List.cons.injEq, and_true]
    omega
  · simp only [store32, be_bytes, List.cons.injEq, and_true]
    omega

theorem mac_cases (m : List Nat) (hm : m.length = 6) :
    ∃ m0 m1 m2 m3 m4 m5, m = [m0, m1, m2, m3, m4, m5] := by
  rcases m with _ | ⟨a, _ | ⟨b, _ | ⟨c, _ | ⟨d, _ | ⟨e, _ | ⟨f, _ | ⟨g, t⟩⟩⟩⟩⟩⟩⟩
  all_goals first
    | exact ⟨_, _, _, _, _, _, rfl⟩
    | (exfalso; simp only [List.length] at hm; omega)

theorem zero_set_raw_mem (m0 m1 m2 m3 m4 m5 : Nat) (h0 : m0 < 256) (h1 : m1 < 256)
    (h2 : m2 < 256) (h3 : m3 < 256) (h4 : m4 < 256) (h5 : m5 < 256) :
    smscusb_mac.zero.set_raw [m0, m1, m2, m3, m4, m5] = ⟨[m0, m1, m2, m3, m4, m5, 0, 0]⟩ := by
  simp [smscusb_mac.zero, smscusb_mac.set_raw, ETH_ALEN, List.replicate, Nat.mod_eq_of_lt, h0,
    h1, h2, h3, h4, h5]

theorem set_l_set_h_mem (e : ByteOrder) (f : smscusb_mac) (hf : f.mem.length = 8)
    (x y : Nat) : (f.set_l e x).set_h e y = ⟨store32 e x ++ store32 e y⟩ := by
  have hd : List.drop 4 (List.drop 4 f.mem) = [] := by
    rw [List.drop_drop]
    exact List.drop_eq_nil_of_le (by omega)
  have hd2 : List.drop 4 ([].append (List.drop 4 f.mem)) = [] := hd
  cases e <;>
    simp only [smscusb_mac.set_l, smscusb_mac.set_h, store32, le_bytes, be_bytes,
      List.cons_append, List.nil_append, List.take, List.drop, hd2]

/-- C5: MAC two-register split round trip.  For every 6-byte MAC address `m`
copied into the raw view of a zeroed `union smscusb_mac`, on either host byte
order: the storage of `addr.l` is `m[0..3]` and the storage of `addr.h` is
`m[4..5]` followed by two zero bytes; assigning these two register values to
a fresh union `f`, whatever its 8 bytes held, gives the same storage, and its
raw view reads `m`.  The views alias: after assigning any `l` and `h` to the
two registers, the raw view reads the first 6 of the 8 storage bytes of `l`
and `h`, and the registers read back with the storage they were given. -/
theorem smscusb_mac_split_round_trip (e : ByteOrder) (m : List Nat) (hm : m.length = 6)
    (hb : ∀ b ∈ m, b < 256) (f : smscusb_mac) (hf : f.mem.length = 8) (l h : Nat) :
    store32 e ((smscusb_mac.zero.set_raw m).l e) = m.take 4 ∧
    store32 e ((smscusb_mac.zero.set_raw m).h e) = m.drop 4 ++ [0, 0] ∧
    (smscusb_mac.zero.set_raw m).raw = m ∧
    (f.set_l e ((smscusb_mac.zero.set_raw m).l e)).set_h e
      ((smscusb_mac.zero.set_raw m).h e) = smscusb_mac.zero.set_raw m ∧
    ((f.set_l e ((smscusb_mac.zero.set_raw m).l e)).set_h e
      ((smscusb_mac.zero.set_raw m).h e)).raw = m ∧
    ((f.set_l e l).set_h e h).raw = (store32 e l ++ store32 e h).take 6 ∧
    store32 e (((f.set_l e l).set_h e h).l e) = store32 e l ∧
    store32 e (((f.set_l e l).set_h e h).h e) = store32 e h := by
  obtain ⟨m0, m1, m2, m3, m4, m5, rfl⟩ := mac_cases m hm
  have h0 : m0 < 256 := hb m0 (by simp)
  have h1 : m1 < 256 := hb m1 (by simp)
  have h2 : m2 < 256 := hb m2 (by simp)
  have h3 : m3 < 256 := hb m3 (by simp)
  have h4 : m4 < 256 := hb m4 (by simp)
  have h5 : m5 < 256 := hb m5 (by simp)
  have hz : (0 : Nat) < 256 := by norm_num
  have hl := store32_load32 e m0 m1 m2 m3 h0 h1 h2 h3
  have hh := store32_load32 e m4 m5 0 0 h4 h5 hz hz
  rw [zero_set_raw_mem m0 m1 m2 m3 m4 m5 h0 h1 h2 h3 h4 h5]
  have hreg := set_l_set_h_mem e f hf
  have hview : ∀ x y : Nat,
      smscusb_mac.l e ⟨store32 e x ++ store32 e y⟩ = load32 e (store32 e x) ∧
      smscusb_mac.h e ⟨store32 e x ++ store32 e y⟩ = load32 e (store32 e y) := by
    intro x y
    cases e <;> exact ⟨rfl, rfl⟩
  refine ⟨?_, ?_, ?_, ?_, ?_, ?_, ?_, ?_⟩
  · simpa [smscusb_mac.l] using hl
  · simpa [smscusb_mac.h] using hh
  · simp [smscusb_mac.raw, ETH_ALEN]
  · rw [hreg]
    simp only [smscusb_mac.l, smscusb_mac.h, List.take, List.drop]
    rw [hl, hh]
    rfl
  · rw [hreg]
    simp only [smscusb_mac.l, smscusb_mac.h, List.take, List.drop]
    rw [hl, hh]
    rfl
  · rw [hreg]
    rfl
  · rw [hreg, (hview l h).1, load32_store32, store32_mod]
  · rw [hreg, (hview l h).2, load32_store32, store32_mod]

/-- Witness for C5: the address 02:00:00:00:00:01 on a big-endian host, whose
register view is `l = 0x02000000`, `h = 0x00010000`, written back into a union
that held `ff` in every byte. -/
theorem smscusb_mac_split_round_trip_witness :
    [2, 0, 0, 0, 0, 1].length = 6 ∧
    (∀ b ∈ [2, 0, 0, 0, 0, 1], b < 256) ∧
    (⟨List.replicate 8 0xff⟩ : smscusb_mac).mem.length = 8 ∧
    store32 .big ((smscusb_mac.zero.set_raw [2, 0, 0, 0, 0, 1]).l .big) = [2, 0, 0, 0] ∧
    store32 .big ((smscusb_mac.zero.set_raw [2, 0, 0, 0, 0, 1]).h .big) = [0, 1, 0, 0] ∧
    ((smscusb_mac.set_l .big ⟨List.replicate 8 0xff⟩
        ((smscusb_mac.zero.set_raw [2, 0, 0, 0, 0, 1]).l .big)).set_h
      .big ((smscusb_mac.zero.set_raw [2, 0, 0, 0, 0, 1]).h .big)).raw = [2, 0, 0, 0, 0, 1] :=
  ⟨by decide, by decide, by decide,
    (smscusb_mac_split_round_trip .big [2, 0, 0, 0, 0, 1] (by decide) (by decide)
      ⟨List.replicate 8 0xff⟩ (by decide) 0x02000000 0x00010000).1,
    (smscusb_mac_split_round_trip .big [2, 0, 0, 0, 0, 1] (by decide) (by decide)
      ⟨List.replicate 8 0xff⟩ (by decide) 0x02000000 0x00010000).2.1,
    (smscusb_mac_split_round_trip .big [2, 0, 0, 0, 0, 1] (by decide) (by decide)
      ⟨List.replicate 8 0xff⟩ (by decide) 0x02000000 0x00010000).2.2.2.2.1⟩

/-! ## The address-valid bit of a filter slot -/

theorem land_split (a a' x x' : Nat) (ha : a < 256) (ha' : a' < 256) :
    (256 * x + a) &&& (256 * x' + a') = 256 * (x &&& x') + (a &&& a') := by
  have h8 : (256 : Nat) = 2 ^ 8 := by norm_num
  have hand : a &&& a' < 2 ^ 8 := Nat.and_lt_two_pow a (by omega)
  rw [h8] at ha ha' ⊢
  apply Nat.eq_of_testBit_eq
  intro j
  rw [Nat.testBit_and, Nat.testBit_mul_pow_two_add _ ha, Nat.testBit_mul_pow_two_add _ ha',
    Nat.testBit_mul_pow_two_add _ hand]
  split <;> simp

theorem and_bit31 (x : Nat) : (x &&& 0x80000000 != 0) = x.testBit 31 := by
  have key : x &&& 2 ^ 31 = if x.testBit 31 then 2 ^ 31 else 0 := by
    apply Nat.eq_of_testBit_eq
    intro i
    rw [Nat.testBit_and, Nat.testBit_two_pow]
    by_cases h : x.testBit 31
    · rw [if_pos h, Nat.testBit_two_pow]
      by_cases hi : 31 = i
      · subst hi; simp [h]
      · simp [hi]
    · rw [if_neg h]
      by_cases hi : 31 = i
      · subst hi; simp [h]
      · simp [hi]
  have h31 : (0x80000000 : Nat) = 2 ^ 31 := by norm_num
  rw [h31, key]
  by_cases h : x.testBit 31 <;> simp [h]

theorem lor_bit31 (x : Nat) (hx : x < 2147483648) : x ||| 2147483648 = x + 2147483648 := by
  have h31 : (2147483648 : Nat) = 2 ^ 31 := by norm_num
  rw [h31] at hx ⊢
  have h := Nat.mul_add_lt_is_or hx 1
  rw [Nat.lor_comm, Nat.add_comm]
  simpa using h.symm

theorem lor_0x80 (y : Nat) : 65536 * y ||| 128 = 65536 * y + 128 := by
  have h16 : (65536 : Nat) = 2 ^ 16 := by norm_num
  rw [h16]
  exact (Nat.mul_add_lt_is_or (by norm_num) y).symm

theorem and_0x7fffffff (x : Nat) : x &&& 2147483647 = x % 2147483648 :=
  Nat.and_pow_two_sub_one_eq_mod x 31

theorem and_0xffffff (x : Nat) : x &&& 16777215 = x % 16777216 :=
  Nat.and_pow_two_sub_one_eq_mod x 24

theorem le_high (e : ByteOrder) (m0 m1 m2 m3 b4 b5 b6 b7 : Nat) (h4 : b4 < 256)
    (h5 : b5 < 256) (h6 : b6 < 256) (h7 : b7 < 256) :
    le32_to_cpu e (smscusb_mac.h e ⟨[m0, m1, m2, m3, b4, b5, b6, b7]⟩) =
      b4 + 256 * b5 + 65536 * b6 + 16777216 * b7 := by
  rw [smscusb_mac.h, le32_to_cpu_load32]
  exact le_value_four b4 b5 b6 b7 h4 h5 h6 h7

theorem set_flag_mem (e : ByteOrder) (m0 m1 m2 m3 m4 m5 : Nat) (h4 : m4 < 256)
    (h5 : m5 < 256) :
    smscusb_mac.set_h e ⟨[m0, m1, m2, m3, m4, m5, 0, 0]⟩
        (smscusb_mac.h e ⟨[m0, m1, m2, m3, m4, m5, 0, 0]⟩ |||
          cpu_to_le32 e SMSCUSB_ADDR_FILTH_VALID) =
      ⟨[m0, m1, m2, m3, m4, m5, 0, 128]⟩ := by
  have hz : (0 : Nat) < 256 := by norm_num
  have h128 : (128 : Nat) < 256 := by norm_num
  cases e
  · have hc : cpu_to_le32 .little SMSCUSB_ADDR_FILTH_VALID = 2147483648 := by decide
    have hh : smscusb_mac.h .little ⟨[m0, m1, m2, m3, m4, m5, 0, 0]⟩
        = m4 + 256 * m5 + 65536 * 0 + 16777216 * 0 := le_value_four m4 m5 0 0 h4 h5 hz hz
    have hs : m4 + 256 * m5 + 65536 * 0 + 16777216 * 0 + 2147483648
        = m4 + 256 * m5 + 65536 * 0 + 16777216 * 128 := by omega
    rw [hc, hh, lor_bit31 _ (by omega), hs, smscusb_mac.set_h, store32,
      le_bytes_of_bytes m4 m5 0 128 h4 h5 hz h128]
    rfl
  · have hc : cpu_to_le32 .big SMSCUSB_ADDR_FILTH_VALID = 128 := by decide
    have hh : smscusb_mac.h .big ⟨[m0, m1, m2, m3, m4, m5, 0, 0]⟩
        = 65536 * (m5 + 256 * m4) := by
      have := be_value_four m4 m5 0 0 h4 h5 hz hz
      simp only [smscusb_mac.h, load32, List.drop, List.take]
      omega
    have hs : 65536 * (m5 + 256 * m4) + 128
        = 128 + 256 * 0 + 65536 * m5 + 16777216 * m4 := by omega
    rw [hc, hh, lor_0x80, hs, smscusb_mac.set_h, store32,
      be_bytes_of_bytes 128 0 m5 m4 h128 hz h5 h4]
    rfl

theorem clear_flag_mem (e : ByteOrder) (m0 m1 m2 m3 m4 m5 : Nat) (h4 : m4 < 256)
    (h5 : m5 < 256) :
    smscusb_mac.set_h e ⟨[m0, m1, m2, m3, m4, m5, 0, 128]⟩
        (smscusb_mac.h e ⟨[m0, m1, m2, m3, m4, m5, 0, 128]⟩ &&&
          (0xffffffff ^^^ cpu_to_le32 e SMSCUSB_ADDR_FILTH_VALID)) =
      ⟨[m0, m1, m2, m3, m4, m5, 0, 0]⟩ := by
  have hz : (0 : Nat) < 256 := by norm_num
  have h128 : (128 : Nat) < 256 := by norm_num
  cases e
  · have hc : 0xffffffff ^^^ cpu_to_le32 .little SMSCUSB_ADDR_FILTH_VALID = 2147483647 := by
      decide
    have hh : smscusb_mac.h .little ⟨[m0, m1, m2, m3, m4, m5, 0, 128]⟩
        = m4 + 256 * m5 + 65536 * 0 + 16777216 * 128 := le_value_four m4 m5 0 128 h4 h5 hz h128
    have hs : (m4 + 256 * m5 + 65536 * 0 + 16777216 * 128) % 2147483648
        = m4 + 256 * m5 + 65536 * 0 + 16777216 * 0 := by omega
    rw [hc, hh, and_0x7fffffff, hs, smscusb_mac.set_h, store32,
      le_bytes_of_bytes m4 m5 0 0 h4 h5 hz hz]
    rfl
  · have hc : 0xffffffff ^^^ cpu_to_le32 .big SMSCUSB_ADDR_FILTH_VALID = 256 * 16777215 + 127 := by
      decide
    have hh : smscusb_mac.h .big ⟨[m0, m1, m2, m3, m4, m5, 0, 128]⟩
        = 256 * (256 * m5 + 65536 * m4) + 128 := by
      have := be_value_four m4 m5 0 128 h4 h5 hz h128
      simp only [smscusb_mac.h, load32, List.drop, List.take]
      omega
    have h0 : (128 : Nat) &&& 127 = 0 := by decide
    have hs : 256 * ((256 * m5 + 65536 * m4) % 16777216) + 0
        = 0 + 256 * 0 + 65536 * m5 + 16777216 * m4 := by omega
    rw [hc, hh, land_split _ _ _ _ h128 (by norm_num), h0,
      and_0xffffff, hs, smscusb_mac.set_h, store32, be_bytes_of_bytes 0 0 m5 m4 hz hz h5 h4]
    rfl

/-- C9: the filter validity bit does not disturb the address.  Let `u` be a
zeroed `union smscusb_mac` into whose raw view a 6-byte MAC address `m` was
copied, `v` the result of `addr.h |= cpu_to_le32 ( SMSCUSB_ADDR_FILTH_VALID )`
on `u`, and `w` the result of
`addr.h &= ~cpu_to_le32 ( SMSCUSB_ADDR_FILTH_VALID )` on `v`, on either host
byte order.  The little-endian value of the high register of `u` carries the
two address bytes in bits 0..15 and has no bit in common with the flag;
setting the flag leaves raw bytes 0..5 and the low register unchanged and adds
exactly bit 31 to the little-endian high value; clearing the flag restores the
high register, and the whole union; bit 31 of the little-endian high value is
clear in `u`, set in `v` and clear in `w`; and a register value has the flag
set exactly when its bit 31 is set. -/
theorem filter_valid_bit_frame (e : ByteOrder) (m : List Nat) (hm : m.length = 6)
    (hb : ∀ b ∈ m, b < 256) (u v w : smscusb_mac)
    (hu : u = smscusb_mac.zero.set_raw m)
    (hv : v = u.set_h e (u.h e ||| cpu_to_le32 e SMSCUSB_ADDR_FILTH_VALID))
    (hw : w = v.set_h e (v.h e &&& (0xffffffff ^^^ cpu_to_le32 e SMSCUSB_ADDR_FILTH_VALID)))
    (x : Nat) :
    le32_to_cpu e (u.h e) = m.getD 4 0 + 256 * m.getD 5 0 ∧
    le32_to_cpu e (u.h e) < 2 ^ 16 ∧
    le32_to_cpu e (u.h e) &&& SMSCUSB_ADDR_FILTH_VALID = 0 ∧
    v.raw = m ∧
    v.raw = u.raw ∧
    v.l e = u.l e ∧
    le32_to_cpu e (v.h e) = le32_to_cpu e (u.h e) ||| SMSCUSB_ADDR_FILTH_VALID ∧
    le32_to_cpu e (v.h e) = le32_to_cpu e (u.h e) + 2 ^ 31 ∧
    w.h e = u.h e ∧
    w = u ∧
    (le32_to_cpu e (u.h e)).testBit 31 = false ∧
    (le32_to_cpu e (v.h e)).testBit 31 = true ∧
    (le32_to_cpu e (w.h e)).testBit 31 = false ∧
    ((x &&& SMSCUSB_ADDR_FILTH_VALID != 0) = x.testBit 31) := by
  obtain ⟨m0, m1, m2, m3, m4, m5, rfl⟩ := mac_cases m hm
  have h0 : m0 < 256 := hb m0 (by simp)
  have h1 : m1 < 256 := hb m1 (by simp)
  have h2 : m2 < 256 := hb m2 (by simp)
  have h3 : m3 < 256 := hb m3 (by simp)
  have h4 : m4 < 256 := hb m4 (by simp)
  have h5 : m5 < 256 := hb m5 (by simp)
  have hz : (0 : Nat) < 256 := by norm_num
  have h128 : (128 : Nat) < 256 := by norm_num
  rw [zero_set_raw_mem m0 m1 m2 m3 m4 m5 h0 h1 h2 h3 h4 h5] at hu
  subst hu
  rw [set_flag_mem e m0 m1 m2 m3 m4 m5 h4 h5] at hv
  subst hv
  rw [clear_flag_mem e m0 m1 m2 m3 m4 m5 h4 h5] at hw
  subst hw
  have hlo := le_high e m0 m1 m2 m3 m4 m5 0 0 h4 h5 hz hz
  have hhi := le_high e m0 m1 m2 m3 m4 m5 0 128 h4 h5 hz h128
  have hlt : m4 + 256 * m5 + 65536 * 0 + 16777216 * 0 < 2 ^ 31 := by omega
  have hbit : (m4 + 256 * m5 + 65536 * 0 + 16777216 * 0).testBit 31 = false :=
    Nat.testBit_lt_two_pow hlt
  have hdis : (m4 + 256 * m5 + 65536 * 0 + 16777216 * 0) &&& SMSCUSB_ADDR_FILTH_VALID = 0 := by
    have h := and_bit31 (m4 + 256 * m5 + 65536 * 0 + 16777216 * 0)
    rw [hbit] at h
    simpa [SMSCUSB_ADDR_FILTH_VALID] using h
  have hv1 : (m4 + 256 * m5 + 65536 * 0 + 16777216 * 128).testBit 31 = true := by
    have h31 : m4 + 256 * m5 + 65536 * 0 + 16777216 * 128
        = 2 ^ 31 + (m4 + 256 * m5 + 65536 * 0 + 16777216 * 0) := by omega
    rw [h31, Nat.testBit_two_pow_add_eq, hbit]
    rfl
  refine ⟨?_, ?_, ?_, ?_, ?_, ?_, ?_, ?_, rfl, rfl, ?_, ?_, ?_, and_bit31 x⟩
  · rw [hlo]
    simp only [List.getD_cons_zero, List.getD_cons_succ]
    omega
  · rw [hlo]
    omega
  · rw [hlo]
    exact hdis
  · rfl
  · rfl
  · cases e <;> rfl
  · rw [hhi, hlo, SMSCUSB_ADDR_FILTH_VALID, lor_bit31 _ (by omega)]
  · rw [hhi, hlo]
    omega
  · rw [hlo]
    exact hbit
  · rw [hhi]
    exact hv1
  · rw [hlo]
    exact hbit

/-- Witness for C9: the address 02:00:00:00:ab:cd on a big-endian host.  The
storage is `02 00 00 00 ab cd 00 00`, after setting the flag it is
`02 00 00 00 ab cd 00 80`, and clearing the flag gives the first storage
again. -/
theorem filter_valid_bit_frame_witness :
    [0x02, 0, 0, 0, 0xab, 0xcd].length = 6 ∧
    (∀ b ∈ [0x02, 0, 0, 0, 0xab, 0xcd], b < 256) ∧
    (⟨[0x02, 0, 0, 0, 0xab, 0xcd, 0, 0x80]⟩ : smscusb_mac).raw = [0x02, 0, 0, 0, 0xab, 0xcd] ∧
    smscusb_mac.l .big ⟨[0x02, 0, 0, 0, 0xab, 0xcd, 0, 0x80]⟩ =
      smscusb_mac.l .big ⟨[0x02, 0, 0, 0, 0xab, 0xcd, 0, 0]⟩ ∧
    le32_to_cpu .big (smscusb_mac.h .big ⟨[0x02, 0, 0, 0, 0xab, 0xcd, 0, 0x80]⟩) =
      le32_to_cpu .big (smscusb_mac.h .big ⟨[0x02, 0, 0, 0, 0xab, 0xcd, 0, 0]⟩) + 2 ^ 31 :=
  ⟨by decide, by decide,
    (filter_valid_bit_frame .big [0x02, 0, 0, 0, 0xab, 0xcd] (by decide) (by decide)
      ⟨[0x02, 0, 0, 0, 0xab, 0xcd, 0, 0]⟩ ⟨[0x02, 0, 0, 0, 0xab, 0xcd, 0, 0x80]⟩
      ⟨[0x02, 0, 0, 0, 0xab, 0xcd, 0, 0]⟩ (by decide) (by decide) (by decide) 0).2.2.2.1,
    (filter_valid_bit_frame .big [0x02, 0, 0, 0, 0xab, 0xcd] (by decide) (by decide)
      ⟨[0x02, 0, 0, 0, 0xab, 0xcd, 0, 0]⟩ ⟨[0x02, 0, 0, 0, 0xab, 0xcd, 0, 0x80]⟩
      ⟨[0x02, 0, 0, 0, 0xab, 0xcd, 0, 0]⟩ (by decide) (by decide) (by decide) 0).2.2.2.2.2.1,
    (filter_valid_bit_frame .big [0x02, 0, 0, 0, 0xab, 0xcd] (by decide) (by decide)
      ⟨[0x02, 0, 0, 0, 0xab, 0xcd, 0, 0]⟩ ⟨[0x02, 0, 0, 0, 0xab, 0xcd, 0, 0x80]⟩
      ⟨[0x02, 0, 0, 0, 0xab, 0xcd, 0, 0]⟩ (by decide) (by decide) (by decide)
      0).2.2.2.2.2.2.2.1⟩

end Smscusb
